import Mathlib

/-
Shallow embedding of the LiquidCore context-group core
(LiquidCoreAndroid/src/main/cpp/Common/ContextGroup.cpp).

The embedding models each operation of the C++ source as a pure Lean
function from an explicit state to a pair of an event trace and a new
state.  Events record the observable actions the source performs, in the
order the source performs them: mutex lock and unlock, task execution,
engine-API calls, disposals, and registry updates.  Machine pointers are
modelled as natural-number identities; boost shared and weak pointers
are modelled by identity plus an aliveness flag where the source asks
for one.
-/

namespace LiquidCore

/-- Distinguished exit codes passed to the script process exit entry
point.  The source passes the macro constant
CONTEXT_GARBAGE_COLLECTED_BUT_PROCESS_STILL_ACTIVE (defined in a header
outside this excerpt); it is kept symbolic here. -/
inductive ExitCode where
  | contextGarbageCollectedButProcessStillActive
  deriving DecidableEq

/-- Queued unit of work (struct Runnable in the source): either a native
closure (the c_runnable field is set) or a Java runnable descriptor
(thiz, runnable, jvm fields).  Identified by a numeric identity. -/
inductive Task where
  | c (id : Nat)
  | java (id : Nat)
  deriving DecidableEq

/-- Entry of m_context_zombies: a JSContext shared reference together
with the result its IsDefunct method reports at drain time. -/
structure CtxZombie where
  id : Nat
  isDefunct : Bool
  deriving DecidableEq

/-- Entry of m_gc_callbacks (struct GCCallback behind a unique_ptr): the
ptr field is the allocation identity of the unique_ptr node, cb and data
are the registered function pointer and opaque data pointer. -/
structure GCCallback where
  ptr : Nat
  cb : Nat
  data : Nat
  deriving DecidableEq

/-- Entry of m_managedValues or m_managedContexts: a weak reference,
with alive recording whether lock() resolves to a live object at
disposal time. -/
structure ManagedRef where
  id : Nat
  alive : Bool
  deriving DecidableEq

/-- Observable actions of the source, in source order. -/
inductive Ev where
  | lockZombie
  | unlockZombie
  | lockAsync
  | unlockAsync
  | lockGlobal
  | unlockGlobal
  | freeValueZombie (id : Nat)
  | exitCall (ctxId : Nat) (code : ExitCode)
  | debugAssert
  | freeContextZombie (id : Nat)
  | execTask (t : Task)
  | closeHandle
  | setHandleNull
  | clearRunnables
  | removeGCHook
  | disposeValue (id : Nat)
  | disposeContext (id : Nat)
  | setDefunct
  | eraseIsolateEntry (iso : Nat)
  | disposeIsolate (iso : Nat)
  | callDisposeV8
  | createPlatform
  | v8Initialize
  | v8Dispose
  | v8ShutdownPlatform
  | deletePlatform
  | freeStartupData
  | hostGCCallback (cb : Nat) (data : Nat)
  deriving DecidableEq

/-- Per-group mutable state of a ContextGroup instance. -/
structure GroupState where
  isolate : Nat
  manageIsolate : Bool
  isDefunct : Bool
  runnables : List Task
  valueZombies : List Nat
  contextZombies : List CtxZombie
  managedValues : List ManagedRef
  managedContexts : List ManagedRef
  gcCallbacks : List GCCallback
  asyncHandle : Option Nat
  startupDataPtr : Bool
  startupRawSize : Nat
  deriving DecidableEq

/-- Process-wide static state: s_init_count, s_platform liveness, and
s_isolate_map (isolate pointer to the gc-callback list of the owning
group, the only group attribute the global GC hook consults). -/
structure GlobalState where
  initCount : Nat
  platformLive : Bool
  isolateMap : List (Nat × List GCCallback)
  deriving DecidableEq

/-- Events the context-zombie half of ContextGroup.FreeZombies performs
for one entry of m_context_zombies: when the context is not defunct, an
engine call on the process exit entry point with the distinguished exit
code, then (in a debug build) an assertion, and in every case the
release of the reference (ctx.reset). -/
def ctxZombieEvents (debug : Bool) (z : CtxZombie) : List Ev :=
  (if z.isDefunct then []
   else Ev.exitCall z.id ExitCode.contextGarbageCollectedButProcessStillActive ::
        (if debug then [Ev.debugAssert] else [])) ++
  [Ev.freeContextZombie z.id]

/-- Trace of ContextGroup.FreeZombies: lock m_zombie_mutex, release each
value zombie in list order, process each context zombie in list order,
unlock.  Both lists are cleared. -/
def freeZombiesTrace (debug : Bool) (vals : List Nat) (ctxs : List CtxZombie) : List Ev :=
  Ev.lockZombie :: (vals.map Ev.freeValueZombie ++
    ctxs.flatMap (ctxZombieEvents debug) ++ [Ev.unlockZombie])

/-- ContextGroup.FreeZombies, lines 192 to 231 of the source. -/
def FreeZombies (debug : Bool) (g : GroupState) : List Ev × GroupState :=
  (freeZombiesTrace debug g.valueZombies g.contextZombies,
   { g with valueZombies := [], contextZombies := [] })

/-- Events the while loop of ContextGroup.callback emits for one queued
task: unlock m_async_mutex, run the task body, relock. -/
def taskBlock (t : Task) : List Ev :=
  [Ev.unlockAsync, Ev.execTask t, Ev.lockAsync]

/-- Tail of the drain loop once no further cross-thread arrivals occur:
the remaining queue is popped and executed front to back. -/
def drainRest : List Task → List Ev
  | [] => []
  | t :: ts => taskBlock t ++ drainRest ts

/-- Drain loop of ContextGroup.callback.  The queue q is the current
m_runnables content; arrivals lists, per executed task, the tasks other
threads append to the queue while that task body runs (appends are
possible because the mutex is released around the body).  The loop exits
as soon as the queue is observed empty. -/
def drainLoop : List (List Task) → List Task → List Ev
  | [], q => drainRest q
  | _ :: _, [] => []
  | a :: arr, t :: ts => taskBlock t ++ drainLoop arr (ts ++ a)

/-- Order in which the drain loop executes task bodies. -/
def drainOrder : List (List Task) → List Task → List Task
  | [], q => q
  | _ :: _, [] => []
  | a :: arr, t :: ts => t :: drainOrder arr (ts ++ a)

/-- ContextGroup.callback, lines 233 to 303 of the source: free the
zombies, lock m_async_mutex, pop and run queued tasks until the queue is
empty (unlocking around each body), close the uv_async handle, null the
handle pointer, unlock. -/
def callback (debug : Bool) (arrivals : List (List Task)) (g : GroupState) :
    List Ev × GroupState :=
  let fz := FreeZombies debug g
  (fz.1 ++ Ev.lockAsync :: (drainLoop arrivals fz.2.runnables ++
     [Ev.closeHandle, Ev.setHandleNull, Ev.unlockAsync]),
   { fz.2 with runnables := [], asyncHandle := none })

/-- ContextGroup.init_v8, lines 64 to 79: under s_mutex, compare
s_init_count against zero with post-increment; on the first call create
the default platform and run the engine initialization. -/
def init_v8 (gl : GlobalState) : List Ev × GlobalState :=
  (Ev.lockGlobal ::
     ((if gl.initCount == 0 then [Ev.createPlatform, Ev.v8Initialize] else []) ++
      [Ev.unlockGlobal]),
   { gl with initCount := gl.initCount + 1,
             platformLive := gl.platformLive || gl.initCount == 0 })

/-- ContextGroup.dispose_v8, lines 81 to 94: under s_mutex, the
decrement of s_init_count is commented out in the source (FIXME: init
once and never dispose); the engine is shut down only when s_init_count
is zero. -/
def dispose_v8 (gl : GlobalState) : List Ev × GlobalState :=
  (Ev.lockGlobal ::
     ((if gl.initCount == 0 then
         [Ev.v8Dispose, Ev.v8ShutdownPlatform, Ev.deletePlatform] else []) ++
      [Ev.unlockGlobal]),
   if gl.initCount == 0 then { gl with platformLive := false } else gl)

/-- Disposal events for the still-live entries of a managed weak list:
the walk locks each weak reference and calls Dispose on the live ones. -/
def managedDisposeEvs (mk : Nat → Ev) (l : List ManagedRef) : List Ev :=
  (l.filter (fun m => m.alive)).map (fun m => mk m.id)

/-- ContextGroup.Dispose, lines 347 to 392: guarded by m_isDefunct; the
non-defunct path clears m_runnables, removes the GC prologue hook, walks
managed values then managed contexts disposing live ones, sets
m_isDefunct, clears the managed lists, frees zombies, erases the entry
of s_isolate_map under s_mutex, then disposes the isolate when owned or
calls dispose_v8 when borrowed, and finally frees the startup data
buffer when present. -/
def Dispose (debug : Bool) (g : GroupState) (gl : GlobalState) :
    List Ev × GroupState × GlobalState :=
  if g.isDefunct then ([], g, gl)
  else
    let fz := FreeZombies debug
      { g with runnables := [], isDefunct := true,
               managedValues := [], managedContexts := [] }
    let gl1 := { gl with isolateMap := gl.isolateMap.filter (fun p => p.1 != g.isolate) }
    let isoStep :=
      if g.manageIsolate then ([Ev.disposeIsolate g.isolate], gl1)
      else
        let dv := dispose_v8 gl1
        (Ev.callDisposeV8 :: dv.1, dv.2)
    (Ev.clearRunnables :: Ev.removeGCHook ::
       (managedDisposeEvs Ev.disposeValue g.managedValues ++
        managedDisposeEvs Ev.disposeContext g.managedContexts ++
        Ev.setDefunct :: (fz.1 ++
        Ev.lockGlobal ::
          ((if (gl.isolateMap.lookup g.isolate).isSome
            then [Ev.eraseIsolateEntry g.isolate] else []) ++
           Ev.unlockGlobal :: (isoStep.1 ++
        (if g.startupDataPtr && g.startupRawSize != 0
         then [Ev.freeStartupData] else []))))),
     fz.2, isoStep.2)

/-- ContextGroup.StaticGCPrologueCallback, lines 50 to 57, together with
ContextGroup.GCPrologueCallback, lines 326 to 335: lock s_mutex, look
the isolate up in s_isolate_map, and when found invoke every registered
per-group callback in list order before unlocking. -/
def StaticGCPrologueCallback (gl : GlobalState) (iso : Nat) : List Ev :=
  Ev.lockGlobal ::
    ((match gl.isolateMap.lookup iso with
      | some cbs => cbs.map (fun e => Ev.hostGCCallback e.cb e.data)
      | none => []) ++ [Ev.unlockGlobal])

/-- ContextGroup.RegisterGCCallback, lines 305 to 311: allocate a new
GCCallback node and push it at the back of m_gc_callbacks. -/
def RegisterGCCallback (ptr cb data : Nat) (l : List GCCallback) : List GCCallback :=
  l ++ [{ ptr := ptr, cb := cb, data := data }]

/-- ContextGroup.UnregisterGCCallback, lines 313 to 324: walk the list;
the iterator is advanced past the current node before the node is
removed, and std.list remove compares the unique_ptr entries, which is
pointer identity, so each remove call erases exactly the node under
examination.  The net effect on the examined list, node by node: a
matching node is dropped, a non-matching node is kept. -/
def UnregisterGCCallback (cb data : Nat) : List GCCallback → List GCCallback
  | [] => []
  | e :: es =>
      if e.cb == cb && e.data == data then UnregisterGCCallback cb data es
      else e :: UnregisterGCCallback cb data es

/-- Matching predicate of UnregisterGCCallback on one entry. -/
def gcMatches (cb data : Nat) (e : GCCallback) : Bool :=
  e.cb == cb && e.data == data

/-- Joint state of the two threads involved in one ContextGroup.sync_
call, lines 399 to 429: the calling thread and the owning thread.
enqueued records the push of the wrapped Runnable, bodyDone that the
supplied runnable has run to completion, signaled the completion flag
the condition variable waits on, and returned that sync_ has returned
to its caller. -/
structure SyncState where
  enqueued : Bool
  bodyDone : Bool
  signaled : Bool
  returned : Bool
  deriving DecidableEq

/-- Initial state of one sync_ call: nothing has happened yet. -/
def syncInit : SyncState := ⟨false, false, false, false⟩

/-- Atomic steps of one sync_ call.  push is the caller appending the
wrapped task under m_async_mutex; runBody is the owning thread running
the supplied runnable inside the c_runnable wrapper; setSignaled is the
wrapper setting the completion flag, which the wrapper code reaches only
after the runnable has returned (program order inside c_runnable);
wakeReturn is cv.wait observing the flag and sync_ returning. -/
inductive SyncStep : SyncState → SyncState → Prop
  | push (s : SyncState) (h : s.enqueued = false) :
      SyncStep s { s with enqueued := true }
  | runBody (s : SyncState) (h : s.enqueued = true) (h2 : s.bodyDone = false) :
      SyncStep s { s with bodyDone := true }
  | setSignaled (s : SyncState) (h : s.bodyDone = true) (h2 : s.signaled = false) :
      SyncStep s { s with signaled := true }
  | wakeReturn (s : SyncState) (h : s.signaled = true) :
      SyncStep s { s with returned := true }

/-- States one sync_ call can reach from its initial state. -/
def SyncReachable (s : SyncState) : Prop :=
  Relation.ReflTransGen SyncStep syncInit s

/-- Model of the snapshot file named by the path handed to
ContextGroup.New: whether fopen succeeds, the size ftell reports, and
the count fread returns. -/
structure SnapshotFile where
  canOpen : Bool
  size : Nat
  readCount : Nat
  deriving DecidableEq

/-- Observable actions of ContextGroup.New. -/
inductive NewEv where
  | fopenFailed
  | allocBuf (n : Nat)
  | freadBytes (n : Nat)
  | deleteBuf
  | ctorSnapshot (n : Nat)
  | ctorPlain
  deriving DecidableEq

/-- Result of constructing a context group: whether the create params
carry a snapshot blob, and its raw size.  The snapshot constructor,
lines 133 to 154, installs the blob only when the data pointer is
non-null and the size is non-zero. -/
structure NewResult where
  hasSnapshotBlob : Bool
  blobSize : Nat
  deriving DecidableEq

/-- ContextGroup constructor taking a snapshot buffer, lines 133 to 154:
the blob is installed iff both the pointer and the size are non-zero. -/
def ctorFromSnapshot (dataNonNull : Bool) (size : Nat) : NewResult :=
  { hasSnapshotBlob := dataNonNull && size != 0,
    blobSize := if dataNonNull && size != 0 then size else 0 }

/-- Default ContextGroup constructor, lines 96 to 113: no snapshot. -/
def ctorDefault : NewResult := { hasSnapshotBlob := false, blobSize := 0 }

/-- ContextGroup.New, lines 451 to 475: open the file; when it opens,
measure it, allocate a buffer of its size and read it whole; when the
read count differs from the size, delete the buffer and fall back to the
null pointer; construct from the buffer when it survived, and from
nothing otherwise.  The function always returns a group. -/
def New (f : SnapshotFile) : List NewEv × NewResult :=
  if f.canOpen then
    if f.readCount != f.size then
      ([NewEv.allocBuf f.size, NewEv.freadBytes f.readCount, NewEv.deleteBuf,
        NewEv.ctorPlain], ctorDefault)
    else
      ([NewEv.allocBuf f.size, NewEv.freadBytes f.readCount,
        NewEv.ctorSnapshot f.size], ctorFromSnapshot true f.size)
  else ([NewEv.fopenFailed, NewEv.ctorPlain], ctorDefault)

/-- Lock-discipline checker: walks a trace keeping the hold depth of one
mutex (isLock increments, isUnlock decrements) and reports whether every
event satisfying isCall occurs at depth zero, that is, with the mutex
not held. -/
def lockFreeDuring (isLock isUnlock isCall : Ev → Bool) : Nat → List Ev → Bool
  | _, [] => true
  | d, e :: es =>
      if isLock e then lockFreeDuring isLock isUnlock isCall (d + 1) es
      else if isUnlock e then lockFreeDuring isLock isUnlock isCall (d - 1) es
      else (!isCall e || d == 0) && lockFreeDuring isLock isUnlock isCall d es

/-- Hold depth of one mutex after a trace. -/
def depthAfter (isLock isUnlock : Ev → Bool) : Nat → List Ev → Nat
  | d, [] => d
  | d, e :: es =>
      if isLock e then depthAfter isLock isUnlock (d + 1) es
      else if isUnlock e then depthAfter isLock isUnlock (d - 1) es
      else depthAfter isLock isUnlock d es

/-- Recognizer for the m_async_mutex lock event. -/
def isLockAsync : Ev → Bool
  | Ev.lockAsync => true
  | _ => false

/-- Recognizer for the m_async_mutex unlock event. -/
def isUnlockAsync : Ev → Bool
  | Ev.unlockAsync => true
  | _ => false

/-- Recognizer for the m_zombie_mutex lock event. -/
def isLockZombie : Ev → Bool
  | Ev.lockZombie => true
  | _ => false

/-- Recognizer for the m_zombie_mutex unlock event. -/
def isUnlockZombie : Ev → Bool
  | Ev.unlockZombie => true
  | _ => false

/-- Recognizer for the s_mutex lock event. -/
def isLockGlobal : Ev → Bool
  | Ev.lockGlobal => true
  | _ => false

/-- Recognizer for the s_mutex unlock event. -/
def isUnlockGlobal : Ev → Bool
  | Ev.unlockGlobal => true
  | _ => false

/-- Events that enter an engine-instance API or deliver a host
callback: the process exit engine call, a task body, a host GC
callback, and the disposal calls on engine objects. -/
def isEngineOrHostCall : Ev → Bool
  | Ev.exitCall _ _ => true
  | Ev.execTask _ => true
  | Ev.hostGCCallback _ _ => true
  | Ev.disposeValue _ => true
  | Ev.disposeContext _ => true
  | Ev.disposeIsolate _ => true
  | _ => false

/-- Recognizer for task-body execution events. -/
def isExecTask : Ev → Bool
  | Ev.execTask _ => true
  | _ => false

/-- Recognizer for the exit engine call on a given context. -/
def isExitCallFor (i : Nat) : Ev → Bool
  | Ev.exitCall j _ => j == i
  | _ => false

lemma drainRest_eq (q : List Task) : drainRest q = q.flatMap taskBlock := by
  induction q with
  | nil => rfl
  | cons t ts ih => simp [drainRest, ih]

lemma drainLoop_eq (arr : List (List Task)) :
    ∀ q, drainLoop arr q = (drainOrder arr q).flatMap taskBlock := by
  induction arr with
  | nil => intro q; simp [drainLoop, drainOrder, drainRest_eq]
  | cons a arr ih =>
      intro q
      cases q with
      | nil => rfl
      | cons t ts => simp [drainLoop, drainOrder, ih]

lemma drainOrder_fifo (arr : List (List Task)) :
    ∀ q, ∃ k, drainOrder arr q = q ++ (arr.take k).flatten := by
  induction arr with
  | nil => intro q; exact ⟨0, by simp [drainOrder]⟩
  | cons a arr ih =>
      intro q
      cases q with
      | nil => exact ⟨0, by simp [drainOrder]⟩
      | cons t ts =>
          obtain ⟨k, hk⟩ := ih (ts ++ a)
          exact ⟨k + 1, by simp [drainOrder, hk]⟩

lemma lockFree_zero_of_no_locks (L U C : Ev → Bool) (l rest : List Ev)
    (h : ∀ e ∈ l, L e = false ∧ U e = false) :
    lockFreeDuring L U C 0 (l ++ rest) = lockFreeDuring L U C 0 rest := by
  induction l with
  | nil => rfl
  | cons e es ih =>
      have he := h e (by simp)
      simp only [List.cons_append, lockFreeDuring, he.1, he.2, if_false]
      simp only [Nat.zero_eq, beq_self_eq_true, Bool.or_true, Bool.true_and]
      exact ih (fun x hx => h x (by simp [hx]))

lemma taskBlock_async_step (C : Ev → Bool) (t : Task) (rest : List Ev) :
    lockFreeDuring isLockAsync isUnlockAsync C 1 (taskBlock t ++ rest) =
      lockFreeDuring isLockAsync isUnlockAsync C 1 rest := by
  simp [taskBlock, lockFreeDuring, isLockAsync, isUnlockAsync]

lemma drainRest_async_free (C : Ev → Bool) (q : List Task) (rest : List Ev) :
    lockFreeDuring isLockAsync isUnlockAsync C 1 (drainRest q ++ rest) =
      lockFreeDuring isLockAsync isUnlockAsync C 1 rest := by
  induction q with
  | nil => rfl
  | cons t ts ih =>
      rw [drainRest, List.append_assoc, taskBlock_async_step]
      exact ih

lemma drainLoop_async_free (C : Ev → Bool) (arr : List (List Task)) :
    ∀ q rest, lockFreeDuring isLockAsync isUnlockAsync C 1 (drainLoop arr q ++ rest) =
      lockFreeDuring isLockAsync isUnlockAsync C 1 rest := by
  induction arr with
  | nil => intro q rest; exact drainRest_async_free C q rest
  | cons a arr ih =>
      intro q rest
      cases q with
      | nil => rfl
      | cons t ts =>
          rw [drainLoop, List.append_assoc, taskBlock_async_step]
          exact ih (ts ++ a) rest

lemma mem_ctxZombieEvents (debug : Bool) (z : CtxZombie) (e : Ev)
    (h : e ∈ ctxZombieEvents debug z) :
    e = Ev.exitCall z.id ExitCode.contextGarbageCollectedButProcessStillActive ∨
    e = Ev.debugAssert ∨ e = Ev.freeContextZombie z.id := by
  by_cases hz : z.isDefunct <;> by_cases hd : debug <;>
    simp [ctxZombieEvents, hz, hd] at h <;> tauto

lemma mem_freeZombiesTrace (debug : Bool) (vals : List Nat) (ctxs : List CtxZombie)
    (e : Ev) (h : e ∈ freeZombiesTrace debug vals ctxs) :
    e = Ev.lockZombie ∨ e = Ev.unlockZombie ∨ (∃ i, e = Ev.freeValueZombie i) ∨
    (∃ i c, e = Ev.exitCall i c) ∨ e = Ev.debugAssert ∨
    (∃ i, e = Ev.freeContextZombie i) := by
  simp only [freeZombiesTrace, List.mem_cons, List.mem_append, List.mem_map,
    List.mem_flatMap, List.mem_singleton] at h
  rcases h with h | ⟨⟨i, _, rfl⟩ | ⟨z, _, hz⟩⟩ | h
  · exact Or.inl h
  · exact Or.inr (Or.inr (Or.inl ⟨i, rfl⟩))
  · rcases mem_ctxZombieEvents debug z e hz with rfl | rfl | rfl
    · exact Or.inr (Or.inr (Or.inr (Or.inl ⟨z.id, _, rfl⟩)))
    · exact Or.inr (Or.inr (Or.inr (Or.inr (Or.inl rfl))))
    · exact Or.inr (Or.inr (Or.inr (Or.inr (Or.inr ⟨z.id, rfl⟩))))
  · rcases h with rfl | h
    · exact Or.inr (Or.inl rfl)
    · exact absurd h (List.not_mem_nil e)

lemma freeZombiesTrace_no_async (debug : Bool) (vals : List Nat)
    (ctxs : List CtxZombie) (e : Ev) (h : e ∈ freeZombiesTrace debug vals ctxs) :
    isLockAsync e = false ∧ isUnlockAsync e = false := by
  rcases mem_freeZombiesTrace debug vals ctxs e h with
    rfl | rfl | ⟨i, rfl⟩ | ⟨i, c, rfl⟩ | rfl | ⟨i, rfl⟩ <;>
  exact ⟨rfl, rfl⟩

lemma callback_async_free (C : Ev → Bool) (hc : C Ev.closeHandle = false)
    (hs : C Ev.setHandleNull = false) (debug : Bool) (arrivals : List (List Task))
    (g : GroupState) :
    lockFreeDuring isLockAsync isUnlockAsync C 0 (callback debug arrivals g).1 = true := by
  show lockFreeDuring isLockAsync isUnlockAsync C 0
    (freeZombiesTrace debug g.valueZombies g.contextZombies ++
      Ev.lockAsync :: (drainLoop arrivals g.runnables ++
        [Ev.closeHandle, Ev.setHandleNull, Ev.unlockAsync])) = true
  rw [lockFree_zero_of_no_locks _ _ C _ _
    (freeZombiesTrace_no_async debug g.valueZombies g.contextZombies)]
  show lockFreeDuring isLockAsync isUnlockAsync C 1
    (drainLoop arrivals g.runnables ++ [Ev.closeHandle, Ev.setHandleNull, Ev.unlockAsync]) = true
  rw [drainLoop_async_free]
  simp [lockFreeDuring, isLockAsync, isUnlockAsync, hc, hs]

/-- Claim C1: one wake of the dispatch callback first frees all zombies,
then executes the queued tasks strictly in FIFO enqueue order (the
initial queue followed by the batches other threads append while task
bodies run, up to the point the queue is observed empty), releasing
m_async_mutex before each task body and reacquiring it after, and after
the queue empties it closes the wake handle and nulls the handle
pointer. -/
theorem C1_callback_drain (debug : Bool) (arrivals : List (List Task)) (g : GroupState) :
    ∃ k,
      (callback debug arrivals g).1 =
        freeZombiesTrace debug g.valueZombies g.contextZombies ++
          Ev.lockAsync :: ((drainOrder arrivals g.runnables).flatMap taskBlock ++
            [Ev.closeHandle, Ev.setHandleNull, Ev.unlockAsync]) ∧
      drainOrder arrivals g.runnables = g.runnables ++ (arrivals.take k).flatten ∧
      (callback debug arrivals g).2.asyncHandle = none ∧
      (callback debug arrivals g).2.valueZombies = [] ∧
      (callback debug arrivals g).2.contextZombies = [] ∧
      lockFreeDuring isLockAsync isUnlockAsync isExecTask 0
        (callback debug arrivals g).1 = true := by
  obtain ⟨k, hk⟩ := drainOrder_fifo arrivals g.runnables
  refine ⟨k, ?_, hk, rfl, rfl, rfl, ?_⟩
  · show freeZombiesTrace debug g.valueZombies g.contextZombies ++
      Ev.lockAsync :: (drainLoop arrivals g.runnables ++
        [Ev.closeHandle, Ev.setHandleNull, Ev.unlockAsync]) = _
    rw [drainLoop_eq]
  · exact callback_async_free isExecTask rfl rfl debug arrivals g

lemma countP_ctxZombieEvents_ne (debug : Bool) (z : CtxZombie) (i : Nat)
    (h : z.id ≠ i) :
    (ctxZombieEvents debug z).countP (isExitCallFor i) = 0 := by
  rw [List.countP_eq_zero]
  intro e he
  rcases mem_ctxZombieEvents debug z e he with rfl | rfl | rfl <;>
    simp [isExitCallFor, h]

lemma countP_ctxZombieEvents_self (debug : Bool) (z : CtxZombie) :
    (ctxZombieEvents debug z).countP (isExitCallFor z.id) =
      if z.isDefunct then 0 else 1 := by
  by_cases hz : z.isDefunct <;> by_cases hd : debug <;>
    simp [ctxZombieEvents, hz, hd, isExitCallFor, List.countP_cons]

/-- Claim C2: during one zombie drain pass, a context zombie whose
context is already defunct triggers no forced exit, and a context zombie
whose context is not defunct triggers the exit engine call with the
distinguished exit code exactly once, strictly before the release of its
reference, with a debug-build assertion raised alongside.  The distinct
entry identities reflect that each zombie entry holds a distinct
JSContext reference. -/
theorem C2_free_zombies_exit (debug : Bool) (g : GroupState)
    (h : (g.contextZombies.map CtxZombie.id).Nodup) :
    ∀ z ∈ g.contextZombies,
      ∃ pre post,
        (FreeZombies debug g).1 = pre ++ ctxZombieEvents debug z ++ post ∧
        pre.countP (isExitCallFor z.id) = 0 ∧
        post.countP (isExitCallFor z.id) = 0 ∧
        (FreeZombies debug g).1.countP (isExitCallFor z.id) =
          (if z.isDefunct then 0 else 1) ∧
        ctxZombieEvents debug z =
          (if z.isDefunct then [Ev.freeContextZombie z.id]
           else Ev.exitCall z.id ExitCode.contextGarbageCollectedButProcessStillActive ::
             ((if debug then [Ev.debugAssert] else []) ++
              [Ev.freeContextZombie z.id])) := by
  intro z hz
  obtain ⟨c1, c2, hctx⟩ := List.append_of_mem hz
  have hmap : (c1.map CtxZombie.id).Nodup ∧ (z.id :: c2.map CtxZombie.id).Nodup ∧
      (c1.map CtxZombie.id).Disjoint (z.id :: c2.map CtxZombie.id) := by
    rw [List.nodup_append.symm]
    simpa [hctx] using h
  have h1 : z.id ∉ c1.map CtxZombie.id := fun hmem =>
    hmap.2.2 hmem (List.mem_cons_self z.id _)
  have h2 : z.id ∉ c2.map CtxZombie.id := (List.nodup_cons.mp hmap.2.1).1
  refine ⟨Ev.lockZombie :: (g.valueZombies.map Ev.freeValueZombie ++
      c1.flatMap (ctxZombieEvents debug)),
    c2.flatMap (ctxZombieEvents debug) ++ [Ev.unlockZombie], ?_, ?_, ?_, ?_, ?_⟩
  · show freeZombiesTrace debug g.valueZombies g.contextZombies = _
    rw [hctx]
    simp [freeZombiesTrace]
  · rw [List.countP_cons_of_neg _ _ (by simp [isExitCallFor]),
      List.countP_append]
    have hv : (g.valueZombies.map Ev.freeValueZombie).countP (isExitCallFor z.id) = 0 := by
      rw [List.countP_eq_zero]
      intro e he
      obtain ⟨i, _, rfl⟩ := List.mem_map.mp he
      simp [isExitCallFor]
    have hc : (c1.flatMap (ctxZombieEvents debug)).countP (isExitCallFor z.id) = 0 := by
      rw [List.countP_eq_zero]
      intro e he
      obtain ⟨w, hw, hew⟩ := List.mem_flatMap.mp he
      have hwid : w.id ≠ z.id := fun hEq => h1 (hEq ▸ List.mem_map_of_mem CtxZombie.id hw)
      have := countP_ctxZombieEvents_ne debug w z.id hwid
      rw [List.countP_eq_zero] at this
      exact this e hew
    rw [hv, hc]
  · rw [List.countP_append]
    have hc : (c2.flatMap (ctxZombieEvents debug)).countP (isExitCallFor z.id) = 0 := by
      rw [List.countP_eq_zero]
      intro e he
      obtain ⟨w, hw, hew⟩ := List.mem_flatMap.mp he
      have hwid : w.id ≠ z.id := fun hEq => h2 (hEq ▸ List.mem_map_of_mem CtxZombie.id hw)
      have := countP_ctxZombieEvents_ne debug w z.id hwid
      rw [List.countP_eq_zero] at this
      exact this e hew
    rw [hc]
    simp [isExitCallFor]
  · show (freeZombiesTrace debug g.valueZombies g.contextZombies).countP _ = _
    rw [hctx]
    simp only [freeZombiesTrace, List.flatMap_append, List.flatMap_cons,
      List.countP_cons, List.countP_append]
    have hv : (g.valueZombies.map Ev.freeValueZombie).countP (isExitCallFor z.id) = 0 := by
      rw [List.countP_eq_zero]
      intro e he
      obtain ⟨i, _, rfl⟩ := List.mem_map.mp he
      simp [isExitCallFor]
    have hcount : ∀ c : List CtxZombie, z.id ∉ c.map CtxZombie.id →
        (c.flatMap (ctxZombieEvents debug)).countP (isExitCallFor z.id) = 0 := by
      intro c hc
      rw [List.countP_eq_zero]
      intro e he
      obtain ⟨w, hw, hew⟩ := List.mem_flatMap.mp he
      have hwid : w.id ≠ z.id := fun hEq => hc (hEq ▸ List.mem_map_of_mem CtxZombie.id hw)
      have := countP_ctxZombieEvents_ne debug w z.id hwid
      rw [List.countP_eq_zero] at this
      exact this e hew
    rw [hv, hcount c1 h1, hcount c2 h2, countP_ctxZombieEvents_self]
    simp [isExitCallFor]
  · by_cases hzd : z.isDefunct <;> simp [ctxZombieEvents, hzd]

/-- Concrete group used to witness the zombie-drain theorem: one value
zombie and two context zombies, one already defunct and one live. -/
def gC2 : GroupState :=
  { isolate := 1, manageIsolate := true, isDefunct := false,
    runnables := [], valueZombies := [9],
    contextZombies := [⟨4, true⟩, ⟨5, false⟩],
    managedValues := [], managedContexts := [], gcCallbacks := [],
    asyncHandle := some 1, startupDataPtr := false, startupRawSize := 0 }

/-- Witness for claim C2 at a concrete drain: the live context zombie 5
receives exactly one forced exit, placed before its release. -/
theorem C2_free_zombies_exit_witness :
    ((gC2.contextZombies.map CtxZombie.id).Nodup) ∧
    (CtxZombie.mk 5 false ∈ gC2.contextZombies) ∧
    (∃ pre post,
      (FreeZombies true gC2).1 = pre ++ ctxZombieEvents true ⟨5, false⟩ ++ post ∧
      pre.countP (isExitCallFor 5) = 0 ∧
      post.countP (isExitCallFor 5) = 0 ∧
      (FreeZombies true gC2).1.countP (isExitCallFor 5) = 1 ∧
      ctxZombieEvents true ⟨5, false⟩ =
        [Ev.exitCall 5 ExitCode.contextGarbageCollectedButProcessStillActive,
         Ev.debugAssert, Ev.freeContextZombie 5]) :=
  ⟨by decide, by decide,
   C2_free_zombies_exit true gC2 (by decide) ⟨5, false⟩ (by decide)⟩

lemma dispose_v8_initCount (gl : GlobalState) :
    (dispose_v8 gl).2.initCount = gl.initCount := by
  by_cases h : gl.initCount = 0 <;> simp [dispose_v8, h]

lemma dispose_v8_isolateMap (gl : GlobalState) :
    (dispose_v8 gl).2.isolateMap = gl.isolateMap := by
  by_cases h : gl.initCount = 0 <;> simp [dispose_v8, h]

lemma dispose_v8_trace_initCount (gl gl2 : GlobalState)
    (h : gl.initCount = gl2.initCount) : (dispose_v8 gl).1 = (dispose_v8 gl2).1 := by
  simp [dispose_v8, h]

lemma lookup_filter_ne (k : Nat) (l : List (Nat × List GCCallback)) :
    (l.filter (fun p => p.1 != k)).lookup k = none := by
  induction l with
  | nil => rfl
  | cons p ps ih =>
      by_cases h : p.1 = k
      · simpa [List.filter_cons, h] using ih
      · have hb : (p.1 != k) = true := by simp [h]
        have hk : (k == p.1) = false := beq_eq_false_iff_ne.mpr (Ne.symm h)
        simpa [List.filter_cons, hb, List.lookup, hk] using ih

/-- Claim C3 (amended at step 6): on a non-defunct group, Dispose clears
the runnable queue, detaches the GC prologue hook, disposes live managed
values then live managed contexts, sets the defunct flag, frees pending
zombies, erases the isolate registry entry under the global mutex, then
either disposes the owned isolate or calls dispose_v8 — which leaves the
process-wide refcount unchanged, the decrement being disabled in the
source — and finally frees the startup-data buffer when one is held. -/
theorem C3_dispose_order (debug : Bool) (g : GroupState) (gl : GlobalState)
    (h1 : g.isDefunct = false)
    (h2 : (gl.isolateMap.lookup g.isolate).isSome = true) :
    (Dispose debug g gl).1 =
      Ev.clearRunnables :: Ev.removeGCHook ::
        (managedDisposeEvs Ev.disposeValue g.managedValues ++
         managedDisposeEvs Ev.disposeContext g.managedContexts ++
         Ev.setDefunct :: (freeZombiesTrace debug g.valueZombies g.contextZombies ++
         Ev.lockGlobal :: Ev.eraseIsolateEntry g.isolate :: Ev.unlockGlobal ::
           ((if g.manageIsolate then [Ev.disposeIsolate g.isolate]
             else Ev.callDisposeV8 :: (dispose_v8 gl).1) ++
            (if g.startupDataPtr && g.startupRawSize != 0
             then [Ev.freeStartupData] else [])))) ∧
    (Dispose debug g gl).2.1.isDefunct = true ∧
    (Dispose debug g gl).2.2.initCount = gl.initCount ∧
    (Dispose debug g gl).2.2.isolateMap.lookup g.isolate = none := by
  refine ⟨?_, ?_, ?_, ?_⟩
  · by_cases hm : g.manageIsolate <;>
      simp [Dispose, h1, h2, hm, FreeZombies,
        dispose_v8_trace_initCount
          { gl with isolateMap := gl.isolateMap.filter (fun p => p.1 != g.isolate) } gl rfl]
  · simp [Dispose, h1, FreeZombies]
  · by_cases hm : g.manageIsolate <;>
      simp [Dispose, h1, hm, dispose_v8_initCount]
  · by_cases hm : g.manageIsolate <;>
      simp [Dispose, h1, hm, dispose_v8_isolateMap, lookup_filter_ne]

/-- Concrete non-defunct group borrowing its isolate, used against the
refcount-decrement reading of disposal step 6. -/
def gC3 : GroupState :=
  { isolate := 7, manageIsolate := false, isDefunct := false,
    runnables := [], valueZombies := [], contextZombies := [],
    managedValues := [⟨1, true⟩], managedContexts := [⟨2, true⟩],
    gcCallbacks := [], asyncHandle := none,
    startupDataPtr := false, startupRawSize := 0 }

/-- Concrete global state with the group registered and one process-wide
reference outstanding. -/
def glC3 : GlobalState :=
  { initCount := 1, platformLive := true, isolateMap := [(7, [])] }

/-- Counterexample to claim C3 as stated: disposing a group that merely
borrowed its isolate does not decrement the process-wide runtime
refcount, because the decrement in dispose_v8 is commented out. -/
theorem C3_dispose_order_cex :
    (Dispose false gC3 glC3).2.2.initCount ≠ glC3.initCount - 1 := by decide

/-- Witness for the amended disposal-order theorem at a concrete group
and registry. -/
theorem C3_dispose_order_witness :
    (gC3.isDefunct = false) ∧
    ((glC3.isolateMap.lookup gC3.isolate).isSome = true) ∧
    ((Dispose false gC3 glC3).1 =
      Ev.clearRunnables :: Ev.removeGCHook ::
        (managedDisposeEvs Ev.disposeValue gC3.managedValues ++
         managedDisposeEvs Ev.disposeContext gC3.managedContexts ++
         Ev.setDefunct :: (freeZombiesTrace false gC3.valueZombies gC3.contextZombies ++
         Ev.lockGlobal :: Ev.eraseIsolateEntry gC3.isolate :: Ev.unlockGlobal ::
           ((if gC3.manageIsolate then [Ev.disposeIsolate gC3.isolate]
             else Ev.callDisposeV8 :: (dispose_v8 glC3).1) ++
            (if gC3.startupDataPtr && gC3.startupRawSize != 0
             then [Ev.freeStartupData] else [])))) ∧
    (Dispose false gC3 glC3).2.1.isDefunct = true ∧
    (Dispose false gC3 glC3).2.2.initCount = glC3.initCount ∧
    (Dispose false gC3 glC3).2.2.isolateMap.lookup gC3.isolate = none) :=
  ⟨rfl, rfl, C3_dispose_order false gC3 glC3 rfl rfl⟩

/-- Claim C4: Dispose leaves the group defunct, and a second Dispose on
the already-defunct group — the destructor path included — emits no
events, changes no group state, and changes no global state: no second
isolate disposal and no second registry removal. -/
theorem C4_dispose_idempotent (debug debug2 : Bool) (g : GroupState)
    (gl gl2 : GlobalState) :
    (Dispose debug g gl).2.1.isDefunct = true ∧
    Dispose debug2 (Dispose debug g gl).2.1 gl2 =
      ([], (Dispose debug g gl).2.1, gl2) := by
  cases hd : g.isDefunct
  · constructor
    · simp [Dispose, hd, FreeZombies]
    · simp [Dispose, hd, FreeZombies]
  · constructor
    · simp [Dispose, hd]
    · simp [Dispose, hd]

/-- Events that never appear in a disposal trace: a task-body execution
or any touch of m_async_mutex.  Dispose clears the queue without running
it and never takes the queue mutex. -/
def evNoAsync (e : Ev) : Bool :=
  !isExecTask e && !isLockAsync e && !isUnlockAsync e

lemma Dispose_trace_eq (debug : Bool) (g : GroupState) (gl : GlobalState)
    (h1 : g.isDefunct = false) :
    (Dispose debug g gl).1 =
      Ev.clearRunnables :: Ev.removeGCHook ::
        (managedDisposeEvs Ev.disposeValue g.managedValues ++
         managedDisposeEvs Ev.disposeContext g.managedContexts ++
         Ev.setDefunct :: (freeZombiesTrace debug g.valueZombies g.contextZombies ++
         Ev.lockGlobal ::
           ((if (gl.isolateMap.lookup g.isolate).isSome
             then [Ev.eraseIsolateEntry g.isolate] else []) ++
            Ev.unlockGlobal ::
            ((if g.manageIsolate then [Ev.disposeIsolate g.isolate]
              else Ev.callDisposeV8 :: (dispose_v8 gl).1) ++
             (if g.startupDataPtr && g.startupRawSize != 0
              then [Ev.freeStartupData] else []))))) := by
  by_cases hm : g.manageIsolate <;>
    simp [Dispose, h1, hm, FreeZombies,
      dispose_v8_trace_initCount
        { gl with isolateMap := gl.isolateMap.filter (fun p => p.1 != g.isolate) } gl rfl]

lemma all_evNoAsync_managed (mk : Nat → Ev) (hmk : ∀ i, evNoAsync (mk i) = true)
    (l : List ManagedRef) : (managedDisposeEvs mk l).all evNoAsync = true := by
  rw [List.all_eq_true]
  intro e he
  obtain ⟨m, _, rfl⟩ := List.mem_map.mp he
  exact hmk m.id

lemma all_evNoAsync_fz (debug : Bool) (vals : List Nat) (ctxs : List CtxZombie) :
    (freeZombiesTrace debug vals ctxs).all evNoAsync = true := by
  rw [List.all_eq_true]
  intro e he
  rcases mem_freeZombiesTrace debug vals ctxs e he with
    rfl | rfl | ⟨i, rfl⟩ | ⟨i, c, rfl⟩ | rfl | ⟨i, rfl⟩ <;> rfl

lemma all_evNoAsync_dispose_v8 (gl : GlobalState) :
    (dispose_v8 gl).1.all evNoAsync = true := by
  by_cases h0 : gl.initCount = 0 <;>
    simp [dispose_v8, h0, evNoAsync, isExecTask, isLockAsync, isUnlockAsync]

lemma Dispose_trace_no_async (debug : Bool) (g : GroupState) (gl : GlobalState) :
    (Dispose debug g gl).1.all evNoAsync = true := by
  cases hd : g.isDefunct
  · rw [Dispose_trace_eq debug g gl hd]
    by_cases hi : (gl.isolateMap.lookup g.isolate).isSome = true
    all_goals by_cases hm : g.manageIsolate = true
    all_goals by_cases hs : (g.startupDataPtr && g.startupRawSize != 0) = true
    all_goals
      simp only [hi, hm, hs, if_true, if_false, ite_true, ite_false,
        eq_self_iff_true, List.all_cons, List.all_append, List.all_nil,
        Bool.and_eq_true]
    all_goals repeat' apply And.intro
    all_goals
      first
        | rfl
        | exact all_evNoAsync_managed Ev.disposeValue (fun i => rfl) g.managedValues
        | exact all_evNoAsync_managed Ev.disposeContext (fun i => rfl) g.managedContexts
        | exact all_evNoAsync_fz debug g.valueZombies g.contextZombies
        | exact all_evNoAsync_dispose_v8 gl
        | simp [evNoAsync, isExecTask, isLockAsync, isUnlockAsync]
  · simp [Dispose, hd]

lemma all_imp_no_locks (l : List Ev) (h : l.all evNoAsync = true) :
    ∀ e ∈ l, isLockAsync e = false ∧ isUnlockAsync e = false := by
  rw [List.all_eq_true] at h
  intro e he
  have := h e he
  simp [evNoAsync] at this
  exact ⟨this.1.2, this.2⟩

/-- Claim C5 (amended): the queue mutex m_async_mutex is indeed never
held while an engine-instance API call or a host callback runs — the
dispatch drain releases it around every task body, and Dispose never
takes it — but the blanket claim fails for the other two mutexes, as the
counterexample shows. -/
theorem C5_lock_discipline (debug debug2 : Bool) (arrivals : List (List Task))
    (g g2 : GroupState) (gl2 : GlobalState) :
    lockFreeDuring isLockAsync isUnlockAsync isEngineOrHostCall 0
      (callback debug arrivals g).1 = true ∧
    lockFreeDuring isLockAsync isUnlockAsync isEngineOrHostCall 0
      (Dispose debug2 g2 gl2).1 = true := by
  constructor
  · exact callback_async_free isEngineOrHostCall rfl rfl debug arrivals g
  · have h := all_imp_no_locks (Dispose debug2 g2 gl2).1
      (Dispose_trace_no_async debug2 g2 gl2)
    have := lockFree_zero_of_no_locks isLockAsync isUnlockAsync isEngineOrHostCall
      (Dispose debug2 g2 gl2).1 [] h
    simpa using this

/-- Concrete registry holding one context group with one registered GC
callback, used to exhibit the held-lock callback delivery. -/
def glC5 : GlobalState :=
  { initCount := 1, platformLive := true, isolateMap := [(7, [⟨0, 11, 22⟩])] }

/-- Concrete group holding one live context zombie, used to exhibit the
held-lock forced-exit call. -/
def gC5 : GroupState :=
  { isolate := 7, manageIsolate := true, isDefunct := false,
    runnables := [], valueZombies := [], contextZombies := [⟨3, false⟩],
    managedValues := [], managedContexts := [], gcCallbacks := [],
    asyncHandle := none, startupDataPtr := false, startupRawSize := 0 }

/-- Counterexample to claim C5 as stated: the process-wide registry
mutex is held while the GC-prologue host callback is delivered, and the
zombie mutex is held while the forced-exit engine call runs inside a
zombie drain. -/
theorem C5_lock_discipline_cex :
    lockFreeDuring isLockGlobal isUnlockGlobal isEngineOrHostCall 0
      (StaticGCPrologueCallback glC5 7) = false ∧
    lockFreeDuring isLockZombie isUnlockZombie isEngineOrHostCall 0
      (FreeZombies true gC5).1 = false := by decide

/-- Claim C6 (amended): init_v8 increments the process-wide count and
initializes the runtime only on the first call; dispose_v8 leaves the
count unchanged — the decrement is commented out in the source — and
would shut the runtime down only at count zero, which cannot occur once
the runtime is initialized, so a dispose following an init never shuts
the runtime down and changes nothing. -/
theorem C6_v8_refcount (gl : GlobalState) :
    (init_v8 gl).2.initCount = gl.initCount + 1 ∧
    (Ev.v8Initialize ∈ (init_v8 gl).1 ↔ gl.initCount = 0) ∧
    (dispose_v8 gl).2.initCount = gl.initCount ∧
    (dispose_v8 (init_v8 gl).2).2 = (init_v8 gl).2 ∧
    Ev.v8Dispose ∉ (dispose_v8 (init_v8 gl).2).1 := by
  refine ⟨rfl, ?_, dispose_v8_initCount gl, ?_, ?_⟩
  · by_cases h : gl.initCount = 0 <;> simp [init_v8, h]
  · simp [dispose_v8, init_v8]
  · simp [dispose_v8, init_v8]

/-- Counterexample to claim C6 as stated: after one init_v8 the count is
one, and a dispose_v8 does not bring it back to zero — the count is
never decremented. -/
theorem C6_v8_refcount_cex :
    (dispose_v8 (init_v8 ⟨0, false, []⟩).2).2.initCount ≠
      (init_v8 ⟨0, false, []⟩).2.initCount - 1 := by decide

/-- Claim C7: construction from a snapshot file path always yields a
group; the snapshot blob is installed exactly when the file opened, was
read whole, and is non-empty; on a short read the allocated buffer is
discarded; and in every failure case the result is the blob-less
default construction rather than an error. -/
theorem C7_new_snapshot_fallback (f : SnapshotFile) :
    (New f).2.hasSnapshotBlob =
      (f.canOpen && (f.readCount == f.size) && (f.size != 0)) ∧
    (NewEv.deleteBuf ∈ (New f).1 ↔ (f.canOpen = true ∧ f.readCount ≠ f.size)) ∧
    ((New f).2 = ctorDefault ∨ (New f).2 = ctorFromSnapshot true f.size) := by
  by_cases ho : f.canOpen = true <;> by_cases hr : f.readCount = f.size <;>
    simp [New, ho, hr, ctorDefault, ctorFromSnapshot]

lemma unregister_eq_filter (cb data : Nat) (l : List GCCallback) :
    UnregisterGCCallback cb data l = l.filter (fun e => !gcMatches cb data e) := by
  induction l with
  | nil => rfl
  | cons e es ih =>
      cases hcb : e.cb == cb <;> cases hdata : e.data == data <;>
        simp [UnregisterGCCallback, List.filter_cons, gcMatches, hcb, hdata, ih]

/-- Claim C8: UnregisterGCCallback removes every entry matching both the
callback and the data pointer (duplicates included), keeps every
non-matching entry in place and in order, and register-then-unregister
(once or twice registered) leaves zero matching entries. -/
theorem C8_unregister_gc (cb data ptr ptr2 : Nat) (l : List GCCallback) :
    UnregisterGCCallback cb data l = l.filter (fun e => !gcMatches cb data e) ∧
    (UnregisterGCCallback cb data l).countP (gcMatches cb data) = 0 ∧
    (UnregisterGCCallback cb data
      (RegisterGCCallback ptr cb data l)).countP (gcMatches cb data) = 0 ∧
    (UnregisterGCCallback cb data (RegisterGCCallback ptr2 cb data
      (RegisterGCCallback ptr cb data l))).countP (gcMatches cb data) = 0 := by
  have hz : ∀ l2 : List GCCallback,
      (UnregisterGCCallback cb data l2).countP (gcMatches cb data) = 0 := by
    intro l2
    rw [unregister_eq_filter, List.countP_eq_zero]
    intro e he
    have := (List.mem_filter.mp he).2
    simpa using this
  exact ⟨unregister_eq_filter cb data l, hz l, hz _, hz _⟩

lemma sync_invariant (s : SyncState) (h : SyncReachable s) :
    (s.signaled = true → s.bodyDone = true) ∧
    (s.returned = true → s.signaled = true) := by
  induction h with
  | refl => exact ⟨by decide, by decide⟩
  | tail hsteps hstep ih =>
      cases hstep with
      | push ht => exact ⟨ih.1, ih.2⟩
      | runBody ht ht2 => exact ⟨fun _ => rfl, ih.2⟩
      | setSignaled ht ht2 => exact ⟨fun _ => ht, fun _ => rfl⟩
      | wakeReturn ht => exact ⟨ih.1, fun _ => ht⟩

/-- Claim C9: sync_ returns only after its task body has fully run on
the owning thread — in every reachable state of one sync_ call, if the
call has returned then the supplied runnable has run to completion,
because the completion flag is set strictly after the body returns and
the wait releases only on that flag. -/
theorem C9_sync_returns_after_body (s : SyncState) (h : SyncReachable s)
    (hr : s.returned = true) : s.bodyDone = true :=
  (sync_invariant s h).1 ((sync_invariant s h).2 hr)

/-- Witness for claim C9 along the full run of one sync_ call: push,
body execution, signal, return. -/
theorem C9_sync_returns_after_body_witness :
    SyncState.bodyDone ⟨true, true, true, true⟩ = true := by
  refine C9_sync_returns_after_body ⟨true, true, true, true⟩ ?_ rfl
  have s1 : SyncReachable ⟨true, false, false, false⟩ :=
    Relation.ReflTransGen.tail Relation.ReflTransGen.refl (SyncStep.push syncInit rfl)
  have s2 : SyncReachable ⟨true, true, false, false⟩ :=
    Relation.ReflTransGen.tail s1 (SyncStep.runBody ⟨true, false, false, false⟩ rfl rfl)
  have s3 : SyncReachable ⟨true, true, true, false⟩ :=
    Relation.ReflTransGen.tail s2 (SyncStep.setSignaled ⟨true, true, false, false⟩ rfl rfl)
  exact Relation.ReflTransGen.tail s3 (SyncStep.wakeReturn ⟨true, true, true, false⟩ rfl)

/-- Claim C10: on a non-defunct group, Dispose discards every pending
task without executing any of them — the clear of m_runnables is the
first observable action, no task body runs anywhere in the disposal
trace, and the queue ends empty. -/
theorem C10_dispose_discards_tasks (debug : Bool) (g : GroupState)
    (gl : GlobalState) (h : g.isDefunct = false) :
    (Dispose debug g gl).1.head? = some Ev.clearRunnables ∧
    (Dispose debug g gl).1.all evNoAsync = true ∧
    (Dispose debug g gl).2.1.runnables = [] := by
  refine ⟨?_, Dispose_trace_no_async debug g gl, ?_⟩
  · rw [Dispose_trace_eq debug g gl h]
    rfl
  · simp [Dispose, h, FreeZombies]

/-- Concrete non-defunct group with two pending tasks, used to witness
the discard-on-dispose theorem. -/
def gC10 : GroupState :=
  { isolate := 3, manageIsolate := true, isDefunct := false,
    runnables := [Task.c 1, Task.java 2], valueZombies := [],
    contextZombies := [], managedValues := [], managedContexts := [],
    gcCallbacks := [], asyncHandle := some 1,
    startupDataPtr := true, startupRawSize := 4 }

/-- Concrete global state for the discard-on-dispose witness. -/
def glC10 : GlobalState :=
  { initCount := 1, platformLive := true, isolateMap := [(3, [])] }

/-- Witness for claim C10 at a concrete group with pending tasks. -/
theorem C10_dispose_discards_tasks_witness :
    (gC10.isDefunct = false) ∧
    ((Dispose true gC10 glC10).1.head? = some Ev.clearRunnables ∧
     (Dispose true gC10 glC10).1.all evNoAsync = true ∧
     (Dispose true gC10 glC10).2.1.runnables = []) :=
  ⟨rfl, C10_dispose_discards_tasks true gC10 glC10 rfl⟩

end LiquidCore
